import Mathlib

/-!
Verification of the literal-unescaping core in `src/lib.rs`.

A Rust `&str` is modelled as a `List Char` (a sequence of Unicode scalar
values), which is exactly what the source iterates over via `str::chars`.
`Result<char, UnescapeCharError>` becomes `Except UnescapeCharError Char`.
Machine integers (`u32` in the source) are modelled as `Nat`; the checked
arithmetic (`checked_mul` / `checked_add` followed by `unwrap`) is modelled
separately with an explicit panic outcome (`Option`), so that absence of
panics is a theorem rather than an assumption.

The quote and brace characters are bound to named constants, so that the
definitions below can refer to them uniformly.
-/

-- The character " (double quote).
def quote_double : Char := Char.ofNat 34

-- The character ' (single quote).
def quote_single : Char := Char.ofNat 39

-- The character x7b (opening brace).
def lbrace : Char := Char.ofNat 123

-- The character x7d (closing brace).
def rbrace : Char := Char.ofNat 125

/-- The error enum `UnescapeCharError` from `src/lib.rs` lines 5-24,
with exactly the variants the source declares. -/
inductive UnescapeCharError where
  | ZeroChars
  | MoreThanOneChar
  | LoneSlash
  | InvalidEscape
  | EscapeOnlyChar
  | InvalidHexEscape
  | OutOfRangeHexEscape
  | InvalidUnicodeEscape
  | EmptyUnicodeEscape
  | UnclosedUnicodeEscape
  | LeadingUnderscoreUnicodeEscape
  | OverlongUnicodeEscape
  | LoneSurrogateUnicodeEscape
  | OutOfRangeUnicodeEscape
  deriving DecidableEq, Repr

/-- Rust's `char::to_digit(16)`: ASCII digits `0-9`, `a-f`, `A-F` map to
their hexadecimal value, everything else to `none`.  Stated on `Char.toNat`
code points (48-57 are the digits, 97-102 lower-case, 65-70 upper-case). -/
def to_digit16 (c : Char) : Option Nat :=
  if 48 ≤ c.toNat ∧ c.toNat ≤ 57 then some (c.toNat - 48)
  else if 97 ≤ c.toNat ∧ c.toNat ≤ 102 then some (c.toNat - 97 + 10)
  else if 65 ≤ c.toNat ∧ c.toNat ≤ 70 then some (c.toNat - 65 + 10)
  else none

/-- Rust's `std::char::from_u32`: `some` exactly on valid Unicode scalar
values (below the surrogate range, or between it and 0x110000). -/
def char_from_u32 (value : Nat) : Option Char :=
  if value.isValidChar then some (Char.ofNat value) else none

/-- The `ok_or_else` closure at `src/lib.rs` lines 96-102: convert the
accumulated `\u` value to a char, classifying the failure as out-of-range
or lone-surrogate. -/
def finish_u (value : Nat) : Except UnescapeCharError Char :=
  match char_from_u32 value with
  | some c => .ok c
  | none =>
    if value > 0x10FFFF then .error .OutOfRangeUnicodeEscape
    else .error .LoneSurrogateUnicodeEscape

/-- The common tail of the simple-escape arms (`src/lib.rs` lines 121-124):
any remaining input is `MoreThanOneChar`, otherwise the substitution char. -/
def finish_simple (c : Char) : List Char → Except UnescapeCharError Char
  | [] => .ok c
  | _ :: _ => .error .MoreThanOneChar

/-- The `loop` of the `'u'` arm (`src/lib.rs` lines 88-116): `value` and
`n_digits` are the accumulator and digit count, the list is the unread
input.  `_` is skipped, a closing brace checks for trailing input and then
converts the value, a digit bumps `n_digits` (overlong as soon as the 7th
digit is seen) and multiplies into the accumulator. -/
def unicode_loop (value n_digits : Nat) : List Char → Except UnescapeCharError Char
  | [] => .error .UnclosedUnicodeEscape
  | c :: cs =>
    if c = '_' then unicode_loop value n_digits cs
    else if c = rbrace then
      match cs with
      | [] => finish_u value
      | _ :: _ => .error .MoreThanOneChar
    else
      match to_digit16 c with
      | none => .error .InvalidUnicodeEscape
      | some digit =>
        if n_digits + 1 > 6 then .error .OverlongUnicodeEscape
        else unicode_loop (value * 16 + digit) (n_digits + 1) cs

/-- The `'x'` arm of `unescape_char` (`src/lib.rs` lines 53-73), given the
input after `\x`: two hex digits are demanded, the combined value
`hi*16+lo` is range-checked before the trailing-input check. -/
def hex_escape : List Char → Except UnescapeCharError Char
  | [] => .error .InvalidHexEscape
  | c1 :: rest =>
    match to_digit16 c1 with
    | none => .error .InvalidHexEscape
    | some hi =>
      match rest with
      | [] => .error .InvalidHexEscape
      | c2 :: rest2 =>
        match to_digit16 c2 with
        | none => .error .InvalidHexEscape
        | some lo =>
          if hi * 16 + lo > 0x7f then .error .OutOfRangeHexEscape
          else
            match rest2 with
            | [] => .ok (Char.ofNat (hi * 16 + lo))
            | _ :: _ => .error .MoreThanOneChar

/-- The `'u'` arm of `unescape_char` (`src/lib.rs` lines 75-117), given the
input after `\u`: an opening brace must follow, then the first significant
character is classified (`_` leading underscore, closing brace empty,
otherwise a digit seeding the loop with `n_digits = 1`). -/
def unicode_escape : List Char → Except UnescapeCharError Char
  | [] => .error .InvalidUnicodeEscape
  | b :: rest =>
    if b = lbrace then
      match rest with
      | [] => .error .UnclosedUnicodeEscape
      | c :: rest2 =>
        if c = '_' then .error .LeadingUnderscoreUnicodeEscape
        else if c = rbrace then .error .EmptyUnicodeEscape
        else
          match to_digit16 c with
          | none => .error .InvalidUnicodeEscape
          | some d => unicode_loop d 1 rest2
    else .error .InvalidUnicodeEscape

/-- `unescape_char` from `src/lib.rs` lines 26-125.  The source handles the
non-backslash case first with an early `return`; here the backslash test is
the outer `if` with the two sides swapped, which is the same dispatch.
Arithmetic is unchecked `Nat` arithmetic; the checked variant
`unescape_char?` below models the `unwrap` panics and is proved to agree. -/
def unescape_char (literal_text : List Char) : Except UnescapeCharError Char :=
  match literal_text with
  | [] => .error .ZeroChars
  | first_char :: chars =>
    if first_char = '\\' then
      match chars with
      | [] => .error .LoneSlash
      | second_char :: chars =>
        if second_char = quote_double then finish_simple quote_double chars
        else if second_char = 'n' then finish_simple '\n' chars
        else if second_char = 'r' then finish_simple '\r' chars
        else if second_char = 't' then finish_simple '\t' chars
        else if second_char = '\\' then finish_simple '\\' chars
        else if second_char = quote_single then finish_simple quote_single chars
        else if second_char = '0' then finish_simple (Char.ofNat 0) chars
        else if second_char = 'x' then hex_escape chars
        else if second_char = 'u' then unicode_escape chars
        else .error .InvalidEscape
    else if first_char = '\t' ∨ first_char = '\n' ∨ first_char = '\r' ∨ first_char = quote_single then
      .error .EscapeOnlyChar
    else
      match chars with
      | [] => .ok first_char
      | _ :: _ => .error .MoreThanOneChar

/-! ### Checked-arithmetic variant

The source computes `hi.checked_mul(16).unwrap().checked_add(lo).unwrap()`
(line 62) and `value.checked_mul(16).unwrap().checked_add(digit).unwrap()`
(line 113) on `u32`.  `checked_mul`/`checked_add` return `none` on `u32`
overflow and `unwrap` panics on `none`.  `unescape_char?` is the same
function with those panics made explicit: a `none` result is a panic. -/

/-- `u32::checked_mul`: `none` iff the product does not fit in 32 bits. -/
def checked_mul (a b : Nat) : Option Nat :=
  if a * b < 4294967296 then some (a * b) else none

/-- `u32::checked_add`: `none` iff the sum does not fit in 32 bits. -/
def checked_add (a b : Nat) : Option Nat :=
  if a + b < 4294967296 then some (a + b) else none

/-- `unicode_loop` with the source's checked arithmetic; `none` models a
panic of one of the two `unwrap` calls at `src/lib.rs` line 113. -/
def unicode_loop? (value n_digits : Nat) : List Char → Option (Except UnescapeCharError Char)
  | [] => some (.error .UnclosedUnicodeEscape)
  | c :: cs =>
    if c = '_' then unicode_loop? value n_digits cs
    else if c = rbrace then
      match cs with
      | [] => some (finish_u value)
      | _ :: _ => some (.error .MoreThanOneChar)
    else
      match to_digit16 c with
      | none => some (.error .InvalidUnicodeEscape)
      | some digit =>
        if n_digits + 1 > 6 then some (.error .OverlongUnicodeEscape)
        else
          match checked_mul value 16 with
          | none => none
          | some v1 =>
            match checked_add v1 digit with
            | none => none
            | some v2 => unicode_loop? v2 (n_digits + 1) cs

/-- `hex_escape` with the source's checked arithmetic; `none` models a
panic of one of the two `unwrap` calls at `src/lib.rs` line 62. -/
def hex_escape? : List Char → Option (Except UnescapeCharError Char)
  | [] => some (.error .InvalidHexEscape)
  | c1 :: rest =>
    match to_digit16 c1 with
    | none => some (.error .InvalidHexEscape)
    | some hi =>
      match rest with
      | [] => some (.error .InvalidHexEscape)
      | c2 :: rest2 =>
        match to_digit16 c2 with
        | none => some (.error .InvalidHexEscape)
        | some lo =>
          match checked_mul hi 16 with
          | none => none
          | some v1 =>
            match checked_add v1 lo with
            | none => none
            | some value =>
              if value > 0x7f then some (.error .OutOfRangeHexEscape)
              else
                match rest2 with
                | [] => some (.ok (Char.ofNat value))
                | _ :: _ => some (.error .MoreThanOneChar)

/-- `unescape_char` with the source's checked arithmetic; `none` models a
panic of an `unwrap` call. -/
def unescape_char? (literal_text : List Char) : Option (Except UnescapeCharError Char) :=
  match literal_text with
  | [] => some (.error .ZeroChars)
  | first_char :: chars =>
    if first_char = '\\' then
      match chars with
      | [] => some (.error .LoneSlash)
      | second_char :: chars =>
        if second_char = quote_double then some (finish_simple quote_double chars)
        else if second_char = 'n' then some (finish_simple '\n' chars)
        else if second_char = 'r' then some (finish_simple '\r' chars)
        else if second_char = 't' then some (finish_simple '\t' chars)
        else if second_char = '\\' then some (finish_simple '\\' chars)
        else if second_char = quote_single then some (finish_simple quote_single chars)
        else if second_char = '0' then some (finish_simple (Char.ofNat 0) chars)
        else if second_char = 'x' then hex_escape? chars
        else if second_char = 'u' then
          match chars with
          | [] => some (.error .InvalidUnicodeEscape)
          | b :: rest =>
            if b = lbrace then
              match rest with
              | [] => some (.error .UnclosedUnicodeEscape)
              | c :: rest2 =>
                if c = '_' then some (.error .LeadingUnderscoreUnicodeEscape)
                else if c = rbrace then some (.error .EmptyUnicodeEscape)
                else
                  match to_digit16 c with
                  | none => some (.error .InvalidUnicodeEscape)
                  | some d => unicode_loop? d 1 rest2
            else some (.error .InvalidUnicodeEscape)
        else some (.error .InvalidEscape)
    else if first_char = '\t' ∨ first_char = '\n' ∨ first_char = '\r' ∨ first_char = quote_single then
      some (.error .EscapeOnlyChar)
    else
      match chars with
      | [] => some (.ok first_char)
      | _ :: _ => some (.error .MoreThanOneChar)

/-! ### The prefix scan

`unescape_char` interleaves the scan of the leading unit with
`chars.next().is_some()` cardinality checks (lines 34, 69, 93, 121 of the
source).  `scan_unit` below is the same scan with those three checks
removed: it returns what the scan of the leading unit produced together
with the unconsumed remainder.  In the source's `'u'` arm the
`from_u32` classification of the accumulated value happens only *after*
the cardinality check (lines 93-102), so the scan's successful outcome for
a unicode escape is the raw accumulated value (`ScanUnit.code`), classified
afterwards by `finish_unit`; every other successful outcome is already a
character (`ScanUnit.lit`). -/

/-- What the scan of one leading unit produces on success. -/
inductive ScanUnit where
  | lit : Char → ScanUnit
  | code : Nat → ScanUnit
  deriving DecidableEq, Repr

/-- Post-scan classification: a `lit` is already resolved; a `code` is the
`\u` value, converted exactly as `src/lib.rs` lines 96-102 do. -/
def finish_unit : ScanUnit → Except UnescapeCharError Char
  | .lit c => .ok c
  | .code v => finish_u v

/-- The `'u'` loop without the cardinality check: a closing brace returns
the accumulated value and the remainder. -/
def scan_unicode_loop (value n_digits : Nat) :
    List Char → Except UnescapeCharError (ScanUnit × List Char)
  | [] => .error .UnclosedUnicodeEscape
  | c :: cs =>
    if c = '_' then scan_unicode_loop value n_digits cs
    else if c = rbrace then .ok (.code value, cs)
    else
      match to_digit16 c with
      | none => .error .InvalidUnicodeEscape
      | some digit =>
        if n_digits + 1 > 6 then .error .OverlongUnicodeEscape
        else scan_unicode_loop (value * 16 + digit) (n_digits + 1) cs

/-- The `'x'` arm without the cardinality check (the 0x7f range check stays
inside the scan: the source performs it before looking at the remainder). -/
def scan_hex : List Char → Except UnescapeCharError (ScanUnit × List Char)
  | [] => .error .InvalidHexEscape
  | c1 :: rest =>
    match to_digit16 c1 with
    | none => .error .InvalidHexEscape
    | some hi =>
      match rest with
      | [] => .error .InvalidHexEscape
      | c2 :: rest2 =>
        match to_digit16 c2 with
        | none => .error .InvalidHexEscape
        | some lo =>
          if hi * 16 + lo > 0x7f then .error .OutOfRangeHexEscape
          else .ok (.lit (Char.ofNat (hi * 16 + lo)), rest2)

/-- The scan of the leading unit of a char literal: `unescape_char` with
the three `MoreThanOneChar` checks removed, returning the unconsumed
remainder alongside the scanned unit. -/
def scan_unit : List Char → Except UnescapeCharError (ScanUnit × List Char)
  | [] => .error .ZeroChars
  | first_char :: chars =>
    if first_char = '\\' then
      match chars with
      | [] => .error .LoneSlash
      | second_char :: chars =>
        if second_char = quote_double then .ok (.lit quote_double, chars)
        else if second_char = 'n' then .ok (.lit '\n', chars)
        else if second_char = 'r' then .ok (.lit '\r', chars)
        else if second_char = 't' then .ok (.lit '\t', chars)
        else if second_char = '\\' then .ok (.lit '\\', chars)
        else if second_char = quote_single then .ok (.lit quote_single, chars)
        else if second_char = '0' then .ok (.lit (Char.ofNat 0), chars)
        else if second_char = 'x' then scan_hex chars
        else if second_char = 'u' then
          match chars with
          | [] => .error .InvalidUnicodeEscape
          | b :: rest =>
            if b = lbrace then
              match rest with
              | [] => .error .UnclosedUnicodeEscape
              | c :: rest2 =>
                if c = '_' then .error .LeadingUnderscoreUnicodeEscape
                else if c = rbrace then .error .EmptyUnicodeEscape
                else
                  match to_digit16 c with
                  | none => .error .InvalidUnicodeEscape
                  | some d => scan_unicode_loop d 1 rest2
            else .error .InvalidUnicodeEscape
        else .error .InvalidEscape
    else if first_char = '\t' ∨ first_char = '\n' ∨ first_char = '\r' ∨ first_char = quote_single then
      .error .EscapeOnlyChar
    else .ok (.lit first_char, chars)

/-! ### The string decoder

`unescape_str` (`src/lib.rs` lines 132-158) drives a `loop` over a `Chars`
cursor; the loop body has no `break` and no `return`, so one execution step
of the body is modelled as a state transition and the loop as iteration of
that step.  The state carries the unread input, the output buffer `buf`,
and the list of `(src_pos, error)` pairs handed to `on_error` (modelling a
callback that records its argument; the source's `scan_char_escape` is the
stub at lines 170-172, `fn scan_char_escape(chars: &mut Chars) ->
Result<char, UnescapeCharError> { Ok('x') }`, which consumes nothing and
never fails, so in fact no error is ever recorded). -/

/-- UTF-8 width of one scalar value, as Rust's `str::len` counts it. -/
def char_utf8_len (c : Char) : Nat :=
  if c.toNat < 128 then 1
  else if c.toNat < 2048 then 2
  else if c.toNat < 65536 then 3
  else 4

/-- `str::len` of the string holding these scalar values. -/
def utf8_len (cs : List Char) : Nat := (cs.map char_utf8_len).sum

/-- `scan_char_escape` from `src/lib.rs` lines 170-172: the stub returns
`Ok('x')` and leaves the cursor untouched. -/
def scan_char_escape (chars : List Char) :
    Except UnescapeCharError Char × List Char :=
  (.ok 'x', chars)

/-- `skip_ascii_whitespace` from `src/lib.rs` lines 160-167: drop the
longest leading run of ASCII space, tab, LF and CR.  (The source scans
bytes; a UTF-8 continuation byte is never one of those four values, so the
first non-matching byte position is a character boundary and dropping
leading bytes equals dropping leading characters.) -/
def skip_ascii_whitespace (chars : List Char) : List Char :=
  chars.dropWhile fun c => c = ' ' ∨ c = '\t' ∨ c = '\n' ∨ c = '\r'

/-- The mutable state of `unescape_str`'s loop. -/
structure UnescapeStrState where
  chars : List Char
  buf : List Char
  errs : List (Nat × UnescapeCharError)
  deriving DecidableEq, Repr

/-- One execution of the loop body of `unescape_str` (`src/lib.rs` lines
138-157), with `initial_len = src.len()` fixed.  The `\`-LF branch drops
both characters then skips whitespace; the `\`-CR-LF branch drops only the
backslash (one `chars.next()`) and lets `skip_ascii_whitespace` eat the CR
and LF; otherwise the scan result is pushed to `buf` or recorded as an
error at `initial_len - chars.as_str().len()`. -/
def unescape_str_step (initial_len : Nat) (st : UnescapeStrState) : UnescapeStrState :=
  if ['\\', '\n'].isPrefixOf st.chars then
    { st with chars := skip_ascii_whitespace (st.chars.drop 2) }
  else if ['\\', '\r', '\n'].isPrefixOf st.chars then
    { st with chars := skip_ascii_whitespace (st.chars.drop 1) }
  else
    match scan_char_escape st.chars with
    | (.ok c, rest) => { st with chars := rest, buf := st.buf ++ [c] }
    | (.error e, rest) =>
      { st with chars := rest, errs := st.errs ++ [(initial_len - utf8_len rest, e)] }

/-- `n` executions of the loop body.  The source's `loop` has no exit, so
the behaviour of `unescape_str` on an input is exactly the unbounded
iteration of this step from the initial state. -/
def unescape_str_iter (initial_len : Nat) (st : UnescapeStrState) : Nat → UnescapeStrState
  | 0 => st
  | n + 1 => unescape_str_iter initial_len (unescape_str_step initial_len st) n

/-- Number of hex digits in a run of digits and separators. -/
def digitCount (ds : List Char) : Nat :=
  (ds.filter fun c => (to_digit16 c).isSome).length

/-- Big-endian accumulation of the hex digits of a run, starting from
`value`; separators (and anything else without a hex value) contribute
nothing, exactly as the `Some('_') => continue` arm does. -/
def accum_hex (value : Nat) (ds : List Char) : Nat :=
  ds.foldl (fun v c => match to_digit16 c with | some d => v * 16 + d | none => v) value

deriving instance DecidableEq for Except

/-! ### Helper lemmas -/

theorem to_digit16_lt (c : Char) (d : Nat) (h : to_digit16 c = some d) : d < 16 := by
  unfold to_digit16 at h
  split_ifs at h with h1 h2 h3
  · injection h with h4; omega
  · injection h with h4; omega
  · injection h with h4; omega

theorem to_digit16_underscore : to_digit16 '_' = none := rfl

theorem to_digit16_rbrace : to_digit16 rbrace = none := rfl

theorem to_digit16_ne_sep (c : Char) (d : Nat) (h : to_digit16 c = some d) :
    ¬c = '_' ∧ ¬c = rbrace := by
  constructor <;> rintro rfl
  · rw [to_digit16_underscore] at h; cases h
  · rw [to_digit16_rbrace] at h; cases h

theorem unescape_char_slash_x (rest : List Char) :
    unescape_char ('\\' :: 'x' :: rest) = hex_escape rest := rfl

theorem unescape_char_slash_u (rest : List Char) :
    unescape_char ('\\' :: 'u' :: rest) = unicode_escape rest := rfl

theorem unicode_escape_digit (c : Char) (d : Nat) (rest2 : List Char)
    (h : to_digit16 c = some d) :
    unicode_escape (lbrace :: c :: rest2) = unicode_loop d 1 rest2 := by
  obtain ⟨h1, h2⟩ := to_digit16_ne_sep c d h
  simp [unicode_escape, h, h1, h2]

/-! ### Claim C10 -/

/-- C10: for the empty input, `unescape_char` returns `Err(ZeroChars)`. -/
theorem c10_empty_input_zero_chars : unescape_char [] = .error .ZeroChars := rfl

/-! ### Claim C3 -/

/-- C3 counterexample: the claim says a carriage return *not* followed by a
line feed yields `BareCarriageReturn`, a distinct error from the
`EscapeOnlyChar` of the CR-LF case.  The code returns `EscapeOnlyChar` for
both (its error enum has no `BareCarriageReturn` variant at all), so at the
concrete input consisting of one bare CR the claim fails. -/
theorem c3_lone_cr_counterexample :
    unescape_char ['\r'] = .error .EscapeOnlyChar
    ∧ unescape_char ['\r', '\n'] = .error .EscapeOnlyChar := ⟨rfl, rfl⟩

/-- C3 amended: every char-literal input beginning with an unescaped
carriage return yields `EscapeOnlyChar`, whether or not a line feed
follows; a lone CR is never passed through as a valid character. -/
theorem c3_cr_always_escape_only (rest : List Char) :
    unescape_char ('\r' :: rest) = .error .EscapeOnlyChar := rfl

/-! ### Claim C8 -/

/-- C8: the byte escape `\x` requires exactly two following ASCII hex
digits — a missing or non-hex character (in either position) yields
`InvalidHexEscape`, a two-digit value `hi*16+lo` above 0x7F yields
`OutOfRangeHexEscape`, and otherwise the result is that byte value as a
scalar value. -/
theorem c8_hex_escape_behaviour :
    (unescape_char ['\\', 'x'] = .error .InvalidHexEscape)
    ∧ (∀ c rest, to_digit16 c = none →
        unescape_char ('\\' :: 'x' :: c :: rest) = .error .InvalidHexEscape)
    ∧ (∀ c hi, to_digit16 c = some hi →
        unescape_char ['\\', 'x', c] = .error .InvalidHexEscape)
    ∧ (∀ c d hi rest, to_digit16 c = some hi → to_digit16 d = none →
        unescape_char ('\\' :: 'x' :: c :: d :: rest) = .error .InvalidHexEscape)
    ∧ (∀ c d hi lo rest, to_digit16 c = some hi → to_digit16 d = some lo →
        0x7f < hi * 16 + lo →
        unescape_char ('\\' :: 'x' :: c :: d :: rest) = .error .OutOfRangeHexEscape)
    ∧ (∀ c d hi lo, to_digit16 c = some hi → to_digit16 d = some lo →
        hi * 16 + lo ≤ 0x7f →
        unescape_char ['\\', 'x', c, d] = .ok (Char.ofNat (hi * 16 + lo))) := by
  refine ⟨rfl, ?_, ?_, ?_, ?_, ?_⟩
  · intro c rest h
    rw [unescape_char_slash_x]
    simp [hex_escape, h]
  · intro c hi h
    rw [show (['\\', 'x', c] : List Char) = '\\' :: 'x' :: [c] from rfl, unescape_char_slash_x]
    simp [hex_escape, h]
  · intro c d hi rest h1 h2
    rw [unescape_char_slash_x]
    simp [hex_escape, h1, h2]
  · intro c d hi lo rest h1 h2 h3
    rw [unescape_char_slash_x]
    simp [hex_escape, h1, h2, h3]
  · intro c d hi lo h1 h2 h3
    rw [show (['\\', 'x', c, d] : List Char) = '\\' :: 'x' :: [c, d] from rfl,
      unescape_char_slash_x]
    simp [hex_escape, h1, h2, show ¬0x7f < hi * 16 + lo from by omega]

/-- C8 witness: `\x41` decodes to `A`. -/
theorem c8_hex_escape_witness : unescape_char ['\\', 'x', '4', '1'] = .ok 'A' := by
  have h := c8_hex_escape_behaviour.2.2.2.2.2 '4' '1' 4 1 (by decide) (by decide) (by decide)
  rw [h]

/-! ### Claims C6 and C7 -/

theorem digitCount_cons_digit (c : Char) (ds : List Char)
    (h : (to_digit16 c).isSome) : digitCount (c :: ds) = 1 + digitCount ds := by
  simp [digitCount, List.filter_cons, h]
  omega

theorem digitCount_cons_sep (c : Char) (ds : List Char)
    (h : to_digit16 c = none) : digitCount (c :: ds) = digitCount ds := by
  simp [digitCount, List.filter_cons, h]

theorem unicode_loop_overlong (ds : List Char) (rest : List Char) :
    ∀ value n, (∀ c ∈ ds, (to_digit16 c).isSome ∨ c = '_') →
    n ≤ 6 → 6 < n + digitCount ds →
    unicode_loop value n (ds ++ rest) = .error .OverlongUnicodeEscape := by
  induction ds with
  | nil =>
    intro value n _ hn hcount
    simp [digitCount] at hcount
    omega
  | cons c ds ih =>
    intro value n hall hn hcount
    have htail : ∀ x ∈ ds, (to_digit16 x).isSome ∨ x = '_' :=
      fun x hx => hall x (List.mem_cons_of_mem _ hx)
    rcases hall c (List.mem_cons_self c ds) with hsome | hund
    · obtain ⟨d, hd⟩ := Option.isSome_iff_exists.mp hsome
      obtain ⟨h1, h2⟩ := to_digit16_ne_sep c d hd
      rw [digitCount_cons_digit c ds hsome] at hcount
      by_cases h6 : n + 1 > 6
      · simp [unicode_loop, h1, h2, hd, h6]
      · simp [unicode_loop, h1, h2, hd, h6]
        exact ih _ _ htail (by omega) (by omega)
    · subst hund
      rw [digitCount_cons_sep _ ds to_digit16_underscore] at hcount
      simp [unicode_loop]
      exact ih _ _ htail hn hcount

/-- C6: an escape of the form `\u` `{` followed by a run of hex digits and
underscores holding at least seven hex digits is `OverlongUnicodeEscape`;
the run may be followed by anything at all (`rest` is unconstrained), since
the error is raised as soon as the seventh digit is seen, before any later
character — including a possibly-invalid closing brace — is examined. -/
theorem c6_overlong_detected_at_seventh_digit (d : Char) (dv : Nat) (ds rest : List Char)
    (hd : to_digit16 d = some dv)
    (hall : ∀ c ∈ ds, (to_digit16 c).isSome ∨ c = '_')
    (hcount : 7 ≤ digitCount (d :: ds)) :
    unescape_char ('\\' :: 'u' :: lbrace :: d :: (ds ++ rest)) =
      .error .OverlongUnicodeEscape := by
  rw [unescape_char_slash_u, unicode_escape_digit d dv _ hd]
  rw [digitCount_cons_digit d ds (by rw [hd]; rfl)] at hcount
  exact unicode_loop_overlong ds rest dv 1 hall (by omega) (by omega)

/-- C6 witness: `\u` `{` followed by seven zeros and a closing brace (the
source's own test input) is overlong. -/
theorem c6_overlong_witness :
    unescape_char ('\\' :: 'u' :: lbrace :: '0' :: (['0', '0', '0', '0', '0', '0'] ++ [rbrace])) =
      .error .OverlongUnicodeEscape :=
  c6_overlong_detected_at_seventh_digit '0' 0 ['0', '0', '0', '0', '0', '0'] [rbrace]
    (by decide) (by decide) (by decide)

theorem finish_u_char (v : Nat) :
    finish_u v =
      if 0x10FFFF < v then .error .OutOfRangeUnicodeEscape
      else if 0xD800 ≤ v ∧ v ≤ 0xDFFF then .error .LoneSurrogateUnicodeEscape
      else .ok (Char.ofNat v) := by
  by_cases h1 : 0x10FFFF < v
  · have hv : ¬v.isValidChar := by unfold Nat.isValidChar; omega
    simp [finish_u, char_from_u32, hv, h1]
  · by_cases h2 : 0xD800 ≤ v ∧ v ≤ 0xDFFF
    · have hv : ¬v.isValidChar := by unfold Nat.isValidChar; omega
      simp [finish_u, char_from_u32, hv, h1, h2]
    · have hv : v.isValidChar := by unfold Nat.isValidChar; omega
      simp [finish_u, char_from_u32, hv, h1, h2]

theorem unicode_loop_closes (ds : List Char) :
    ∀ value n, (∀ c ∈ ds, (to_digit16 c).isSome ∨ c = '_') →
    n + digitCount ds ≤ 6 →
    unicode_loop value n (ds ++ [rbrace]) = finish_u (accum_hex value ds) := by
  induction ds with
  | nil =>
    intro value n _ _
    simp [unicode_loop, accum_hex, show ¬(rbrace = '_') from by decide]
  | cons c ds ih =>
    intro value n hall hcount
    have htail : ∀ x ∈ ds, (to_digit16 x).isSome ∨ x = '_' :=
      fun x hx => hall x (List.mem_cons_of_mem _ hx)
    rcases hall c (List.mem_cons_self c ds) with hsome | hund
    · obtain ⟨d, hd⟩ := Option.isSome_iff_exists.mp hsome
      obtain ⟨h1, h2⟩ := to_digit16_ne_sep c d hd
      rw [digitCount_cons_digit c ds hsome] at hcount
      simp [unicode_loop, h1, h2, hd, show ¬(6 < n + 1) from by omega, accum_hex, List.foldl_cons]
      exact ih _ _ htail (by omega)
    · subst hund
      rw [digitCount_cons_sep _ ds to_digit16_underscore] at hcount
      simp [unicode_loop, accum_hex, List.foldl_cons, to_digit16_underscore]
      exact ih _ _ htail hcount

/-- C7: for a well-formed Unicode escape whose digit run (underscores
ignored) accumulates big-endian to the value `v`, `unescape_char` returns
`OutOfRangeUnicodeEscape` when `v > 0x10FFFF`, `LoneSurrogateUnicodeEscape`
when `v` lies in the surrogate range, and otherwise the scalar value at
code point `v`. -/
theorem c7_unicode_value_classified (d : Char) (dv : Nat) (ds : List Char)
    (hd : to_digit16 d = some dv)
    (hall : ∀ c ∈ ds, (to_digit16 c).isSome ∨ c = '_')
    (hcount : digitCount (d :: ds) ≤ 6) :
    unescape_char ('\\' :: 'u' :: lbrace :: d :: (ds ++ [rbrace])) =
      if 0x10FFFF < accum_hex dv ds then .error .OutOfRangeUnicodeEscape
      else if 0xD800 ≤ accum_hex dv ds ∧ accum_hex dv ds ≤ 0xDFFF then
        .error .LoneSurrogateUnicodeEscape
      else .ok (Char.ofNat (accum_hex dv ds)) := by
  rw [unescape_char_slash_u, unicode_escape_digit d dv _ hd]
  rw [digitCount_cons_digit d ds (by rw [hd]; rfl)] at hcount
  rw [unicode_loop_closes ds dv 1 hall (by omega), finish_u_char]

/-- C7 witness: `\u` `{` `4` `1` `}` decodes to `A` (code point 0x41). -/
theorem c7_unicode_value_witness :
    unescape_char ('\\' :: 'u' :: lbrace :: '4' :: (['1'] ++ [rbrace])) = .ok 'A' := by
  have h := c7_unicode_value_classified '4' 4 ['1'] (by decide) (by decide) (by decide)
  rw [h]; decide

/-! ### Claim C9 -/

theorem unicode_loop_no_panic (cs : List Char) :
    ∀ value n, value < 16 ^ n → n ≤ 6 →
    unicode_loop? value n cs = some (unicode_loop value n cs) := by
  induction cs with
  | nil => intro value n _ _; rfl
  | cons c cs ih =>
    intro value n hv hn
    by_cases h1 : c = '_'
    · subst h1
      simp [unicode_loop?, unicode_loop]
      exact ih value n hv hn
    · by_cases h2 : c = rbrace
      · subst h2
        cases cs <;> simp [unicode_loop?, unicode_loop, h1]
      · cases hd : to_digit16 c with
        | none => simp [unicode_loop?, unicode_loop, h1, h2, hd]
        | some digit =>
          have hdlt : digit < 16 := to_digit16_lt c digit hd
          by_cases h6 : 6 < n + 1
          · simp [unicode_loop?, unicode_loop, h1, h2, hd, h6]
          · have hpow : 16 ^ n ≤ 16 ^ 5 := Nat.pow_le_pow_right (by norm_num) (by omega)
            have h165 : (16 : Nat) ^ 5 = 1048576 := by norm_num
            have hmul : value * 16 < 4294967296 := by omega
            have hadd : value * 16 + digit < 4294967296 := by omega
            have hv' : value * 16 + digit < 16 ^ (n + 1) := by
              have hps : (16 : Nat) ^ (n + 1) = 16 ^ n * 16 := pow_succ 16 n
              omega
            simp [unicode_loop?, unicode_loop, h1, h2, hd, h6, checked_mul, checked_add,
              hmul, hadd]
            exact ih _ _ hv' (by omega)

theorem hex_escape_no_panic (cs : List Char) : hex_escape? cs = some (hex_escape cs) := by
  match cs with
  | [] => rfl
  | c1 :: rest =>
    cases h1 : to_digit16 c1 with
    | none => simp [hex_escape?, hex_escape, h1]
    | some hi =>
      match rest with
      | [] => simp [hex_escape?, hex_escape, h1]
      | c2 :: rest2 =>
        cases h2 : to_digit16 c2 with
        | none => simp [hex_escape?, hex_escape, h1, h2]
        | some lo =>
          have hhi : hi < 16 := to_digit16_lt c1 hi h1
          have hlo : lo < 16 := to_digit16_lt c2 lo h2
          have hmul : hi * 16 < 4294967296 := by omega
          have hadd : hi * 16 + lo < 4294967296 := by omega
          simp [hex_escape?, hex_escape, h1, h2, checked_mul, checked_add, hmul, hadd]
          split_ifs
          · rfl
          · cases rest2 <;> rfl

/-- C9: `unescape_char` never panics — every `checked_mul`/`checked_add`
`unwrap` succeeds, because the `\x` value is at most `15*16+15 = 255` and
the `\u` accumulator stays below `16^6` (at most six digits are ever
multiplied in before the overlong check rejects the seventh), both far
below the `u32` bound.  Formally: the panic-aware interpretation
`unescape_char?` always returns `some` of the pure result. -/
theorem c9_no_panic (s : List Char) : unescape_char? s = some (unescape_char s) := by
  match s with
  | [] => rfl
  | first_char :: chars =>
    by_cases hb : first_char = '\\'
    · subst hb
      match chars with
      | [] => rfl
      | second_char :: chars2 =>
        by_cases e1 : second_char = quote_double
        · subst e1; rfl
        · by_cases e2 : second_char = 'n'
          · subst e2; rfl
          · by_cases e3 : second_char = 'r'
            · subst e3; rfl
            · by_cases e4 : second_char = 't'
              · subst e4; rfl
              · by_cases e5 : second_char = '\\'
                · subst e5; rfl
                · by_cases e6 : second_char = quote_single
                  · subst e6; rfl
                  · by_cases e7 : second_char = '0'
                    · subst e7; rfl
                    · by_cases e8 : second_char = 'x'
                      · subst e8
                        simp [unescape_char?, unescape_char, e1, e2, e3, e4, e5, e6, e7]
                        exact hex_escape_no_panic chars2
                      · by_cases e9 : second_char = 'u'
                        · subst e9
                          simp only [unescape_char?, unescape_char, e1, e2, e3, e4, e5, e6, e7,
                            e8, if_false, if_true, if_neg, if_pos]
                          match chars2 with
                          | [] => rfl
                          | b :: rest =>
                            by_cases hbr : b = lbrace
                            · subst hbr
                              match rest with
                              | [] => simp [unicode_escape]
                              | c :: rest2 =>
                                by_cases hc1 : c = '_'
                                · subst hc1; simp [unicode_escape]
                                · by_cases hc2 : c = rbrace
                                  · subst hc2; simp [unicode_escape, hc1]
                                  · cases hd : to_digit16 c with
                                    | none => simp [unicode_escape, hc1, hc2, hd]
                                    | some d =>
                                      simp [unicode_escape, hc1, hc2, hd]
                                      exact unicode_loop_no_panic rest2 d 1
                                        (by simpa using to_digit16_lt c d hd) (by omega)
                            · simp [unicode_escape, hbr]
                        · simp [unescape_char?, unescape_char, e1, e2, e3, e4, e5, e6, e7, e8, e9]
    · by_cases he : first_char = '\t' ∨ first_char = '\n' ∨ first_char = '\r' ∨
        first_char = quote_single
      · simp [unescape_char?, unescape_char, hb, he]
      · cases chars <;> simp [unescape_char?, unescape_char, hb, he]

/-! ### Claim C4 -/

/-- The post-scan wrapping that `unescape_char` applies to what the scan of
the leading unit produced: a scan error stands; a scanned unit with
leftover input is `MoreThanOneChar`; a scanned unit consuming everything is
classified by `finish_unit`. -/
def wrap_scan (r : Except UnescapeCharError (ScanUnit × List Char)) :
    Except UnescapeCharError Char :=
  match r with
  | .error e => .error e
  | .ok (u, rem) =>
    match rem with
    | [] => finish_unit u
    | _ :: _ => .error .MoreThanOneChar

theorem unicode_loop_eq_scan (cs : List Char) :
    ∀ value n, unicode_loop value n cs = wrap_scan (scan_unicode_loop value n cs) := by
  induction cs with
  | nil => intro value n; rfl
  | cons c cs ih =>
    intro value n
    by_cases h1 : c = '_'
    · subst h1
      simp [unicode_loop, scan_unicode_loop]
      exact ih value n
    · by_cases h2 : c = rbrace
      · subst h2
        cases cs <;> simp [unicode_loop, scan_unicode_loop, h1, wrap_scan, finish_unit]
      · cases hd : to_digit16 c with
        | none => simp [unicode_loop, scan_unicode_loop, h1, h2, hd, wrap_scan]
        | some d =>
          by_cases h6 : 6 < n + 1
          · simp [unicode_loop, scan_unicode_loop, h1, h2, hd, h6, wrap_scan]
          · simp [unicode_loop, scan_unicode_loop, h1, h2, hd, h6]
            exact ih _ _

theorem hex_escape_eq_scan (cs : List Char) : hex_escape cs = wrap_scan (scan_hex cs) := by
  match cs with
  | [] => rfl
  | c1 :: rest =>
    cases h1 : to_digit16 c1 with
    | none => simp [hex_escape, scan_hex, h1, wrap_scan]
    | some hi =>
      match rest with
      | [] => simp [hex_escape, scan_hex, h1, wrap_scan]
      | c2 :: rest2 =>
        cases h2 : to_digit16 c2 with
        | none => simp [hex_escape, scan_hex, h1, h2, wrap_scan]
        | some lo =>
          by_cases h3 : 0x7f < hi * 16 + lo
          · simp [hex_escape, scan_hex, h1, h2, h3, wrap_scan]
          · cases rest2 <;> simp [hex_escape, scan_hex, h1, h2, h3, wrap_scan, finish_unit]

/-- `unescape_char` is exactly the scan of the leading unit followed by the
cardinality check: scan errors stand regardless of the remainder, and a
scanned unit with leftover input is `MoreThanOneChar`. -/
theorem unescape_char_eq_scan (s : List Char) : unescape_char s = wrap_scan (scan_unit s) := by
  match s with
  | [] => rfl
  | first_char :: chars =>
    by_cases hb : first_char = '\\'
    · subst hb
      match chars with
      | [] => rfl
      | second_char :: chars2 =>
        by_cases e1 : second_char = quote_double
        · subst e1; cases chars2 <;> rfl
        · by_cases e2 : second_char = 'n'
          · subst e2; cases chars2 <;> rfl
          · by_cases e3 : second_char = 'r'
            · subst e3; cases chars2 <;> rfl
            · by_cases e4 : second_char = 't'
              · subst e4; cases chars2 <;> rfl
              · by_cases e5 : second_char = '\\'
                · subst e5; cases chars2 <;> rfl
                · by_cases e6 : second_char = quote_single
                  · subst e6; cases chars2 <;> rfl
                  · by_cases e7 : second_char = '0'
                    · subst e7; cases chars2 <;> rfl
                    · by_cases e8 : second_char = 'x'
                      · subst e8
                        simp [unescape_char, scan_unit, e1, e2, e3, e4, e5, e6, e7]
                        exact hex_escape_eq_scan chars2
                      · by_cases e9 : second_char = 'u'
                        · subst e9
                          simp only [unescape_char, scan_unit, e1, e2, e3, e4, e5, e6, e7, e8,
                            if_false, if_true, if_neg, if_pos]
                          match chars2 with
                          | [] => rfl
                          | b :: rest =>
                            by_cases hbr : b = lbrace
                            · subst hbr
                              match rest with
                              | [] => simp [unicode_escape, wrap_scan]
                              | c :: rest2 =>
                                by_cases hc1 : c = '_'
                                · subst hc1; simp [unicode_escape, wrap_scan]
                                · by_cases hc2 : c = rbrace
                                  · subst hc2; simp [unicode_escape, hc1, wrap_scan]
                                  · cases hd : to_digit16 c with
                                    | none =>
                                      simp [unicode_escape, hc1, hc2, hd, wrap_scan]
                                    | some d =>
                                      simp [unicode_escape, hc1, hc2, hd]
                                      exact unicode_loop_eq_scan rest2 d 1
                            · simp [unicode_escape, hbr, wrap_scan]
                        · simp [unescape_char, scan_unit, e1, e2, e3, e4, e5, e6, e7, e8, e9,
                            wrap_scan]
    · by_cases he : first_char = '\t' ∨ first_char = '\n' ∨ first_char = '\r' ∨
        first_char = quote_single
      · simp [unescape_char, scan_unit, hb, he, wrap_scan]
      · cases chars <;> simp [unescape_char, scan_unit, hb, he, wrap_scan, finish_unit]

/-- C4 counterexample: the claim says a failing prefix scan is reported as
that scan error regardless of any remaining input.  The scan of the unit
`\u` `{` `D800` `}` fails with `LoneSurrogateUnicodeEscape` — that is what
`unescape_char` returns when nothing follows the unit — yet with a
trailing `x` the code returns `MoreThanOneChar` instead: in the `'u'` arm
the source checks for trailing input *before* converting the accumulated
value, so the scan error does not stand. -/
theorem c4_surrogate_remainder_counterexample :
    unescape_char ['\\', 'u', lbrace, 'D', '8', '0', '0', rbrace] =
      .error .LoneSurrogateUnicodeEscape
    ∧ unescape_char ['\\', 'u', lbrace, 'D', '8', '0', '0', rbrace, 'x'] =
      .error .MoreThanOneChar := by
  constructor <;> decide

/-- C4 amended: the outcome of scanning the leading unit is determined
purely by the consumed prefix, and a scan error is returned regardless of
remaining input, *except* that in the `\u` arm the surrogate/out-of-range
classification of the accumulated value is performed only after the
trailing-input check; equivalently, the scan of a structurally well-formed
`\u` escape succeeds with the raw value, any non-empty remainder then
yields `MoreThanOneChar`, and only an empty remainder classifies the
value.  Formally, with `scan_unit` the source's scan (the code minus its
three trailing-input checks): a scan error is `unescape_char`'s result
whatever was left unconsumed, and a successful scan yields
`MoreThanOneChar` exactly when input remains, the unit's classification
otherwise. -/
theorem c4_prefix_scan_precedence (first_char : Char) (rest : List Char) :
    (∀ e, scan_unit (first_char :: rest) = .error e →
      unescape_char (first_char :: rest) = .error e)
    ∧ (∀ u rem, scan_unit (first_char :: rest) = .ok (u, rem) →
      unescape_char (first_char :: rest) =
        if rem = [] then finish_unit u else .error .MoreThanOneChar) := by
  constructor
  · intro e h
    rw [unescape_char_eq_scan, h]
    rfl
  · intro u rem h
    rw [unescape_char_eq_scan, h]
    cases rem <;> simp [wrap_scan]

/-- C4 witness: scanning `a` from `ab` succeeds with remainder `b`, so the
result is `MoreThanOneChar`. -/
theorem c4_prefix_scan_witness : unescape_char ['a', 'b'] = .error .MoreThanOneChar := by
  have h := (c4_prefix_scan_precedence 'a' ['b']).2 (.lit 'a') ['b'] (by decide)
  simpa using h

/-! ### Claims C1, C2 and C5

When the unread input does not begin with a line-continuation, one loop
iteration of `unescape_str` consumes nothing: the stubbed
`scan_char_escape` leaves the cursor where it was and returns `Ok('x')`,
so the body pushes `'x'` and loops with the same cursor.  Since the `loop`
has no `break` or `return`, the decoder never terminates, never reports an
error and never consumes a scalar value past the initial run of
line-continuations. -/

theorem unescape_str_step_stuck (ilen : Nat) (st : UnescapeStrState)
    (h1 : ['\\', '\n'].isPrefixOf st.chars = false)
    (h2 : ['\\', '\r', '\n'].isPrefixOf st.chars = false) :
    unescape_str_step ilen st = { st with buf := st.buf ++ ['x'] } := by
  simp [unescape_str_step, h1, h2, scan_char_escape]

theorem unescape_str_iter_stuck (ilen : Nat) (cs : List Char)
    (errs0 : List (Nat × UnescapeCharError))
    (h1 : ['\\', '\n'].isPrefixOf cs = false)
    (h2 : ['\\', '\r', '\n'].isPrefixOf cs = false) :
    ∀ n buf0, unescape_str_iter ilen ⟨cs, buf0, errs0⟩ n =
      ⟨cs, buf0 ++ List.replicate n 'x', errs0⟩ := by
  intro n
  induction n with
  | zero => intro buf0; simp [unescape_str_iter]
  | succ n ih =>
    intro buf0
    rw [unescape_str_iter, unescape_str_step_stuck ilen ⟨cs, buf0, errs0⟩ h1 h2]
    rw [ih (buf0 ++ ['x'])]
    simp [List.replicate_succ]

/-- C1 refutation: the loop of `unescape_str` does not terminate, and its
iterations need not consume input.  On the empty input — where a decoder
whose iterations each consume at least one scalar value would have to stop
at once — after `n` loop iterations the cursor still holds the (empty)
input, no error has been reported, and the buffer has grown to `n` copies
of `'x'`: the loop body consumes nothing and runs forever. -/
theorem c1_unescape_str_loop_diverges (n : Nat) :
    unescape_str_iter (utf8_len []) ⟨[], [], []⟩ n =
      ⟨[], List.replicate n 'x', []⟩ :=
  unescape_str_iter_stuck (utf8_len []) [] [] (by decide) (by decide) n []

/-- The input of the multiple-error example of claim C2: `\x\q`. -/
def c2_input : List Char := ['\\', 'x', '\\', 'q']

/-- C2 refutation: decoding `\x\q` reports nothing at all.  After any
number of loop iterations the error list is still empty (the stubbed scan
never fails, so `on_error` is never invoked), the cursor has not moved past
the first unit, and the buffer holds only the scan stub's `'x'`
characters — no unit is ever reported, let alone each one exactly once. -/
theorem c2_unescape_str_reports_nothing (n : Nat) :
    unescape_str_iter (utf8_len c2_input) ⟨c2_input, [], []⟩ n =
      ⟨c2_input, List.replicate n 'x', []⟩ :=
  unescape_str_iter_stuck (utf8_len c2_input) c2_input [] (by decide) (by decide) n []

/-- The input of the line-continuation example of claim C5:
`hello \` LF `   world`. -/
def c5_input : List Char :=
  ['h', 'e', 'l', 'l', 'o', ' ', '\\', '\n', ' ', ' ', ' ', 'w', 'o', 'r', 'l', 'd']

/-- C5 refutation: decoding `hello \` LF `   world` never yields
`hello world`.  The input does not begin with a line-continuation, so every
loop iteration takes the scan branch, which consumes nothing and pushes
`'x'`: after `n` iterations the buffer is `n` copies of `'x'` and the
cursor still sits before the `h` — the line-continuation is never even
reached, and no iteration count produces the claimed output. -/
theorem c5_line_continuation_never_reached (n : Nat) :
    unescape_str_iter (utf8_len c5_input) ⟨c5_input, [], []⟩ n =
      ⟨c5_input, List.replicate n 'x', []⟩ :=
  unescape_str_iter_stuck (utf8_len c5_input) c5_input [] (by decide) (by decide) n []
